import Mathlib

/-!
Verification of the sequencer-feed-reader decoding pipeline.

This file gives a shallow embedding of the repository:

* `src/src/decoder.rs` (namespace `MainDecoder`) and
  `src/src/networks/arbitrum/decoder.rs` (namespace `ArbDecoder`): the payload
  decoders.  Bytes are modelled as `Nat` (all values produced by the base64
  decoder are `< 256`); Rust `panic`/`unwrap` failures are modelled as
  `Except.error` with the corresponding panic message; the `Option` returned
  by the Rust code is the inner `Option`.
* `src/src/networks/arbitrum/types.rs`: the envelope data model.
* `src/src/networks/arbitrum/feed_client.rs`: chain-id validation and the
  frame-pump run loop, modelled over an explicit list of incoming frame
  events and boolean channel states.

External collaborators (the `base64` crate engine `general_purpose::STANDARD`,
Rust `u64` string parsing, the `rlp` item accessors used by the `Action`
decoder) are modelled concretely from their documented semantics; the RLP
transaction codec itself is an opaque parameter (`rlpDec : List Nat → Option Tx`),
exactly as the specification treats it.
-/

/-! ## Big-endian 8-byte lengths

`u64::from_be_bytes` on an 8-byte slice, and its inverse used to build batch
frames for the round-trip statements. -/

/-- Big-endian interpretation of a byte list, as in `u64::from_be_bytes`. -/
def fromBE (l : List Nat) : Nat :=
  l.foldl (fun acc b => acc * 256 + b) 0

/-- The 8-byte big-endian encoding of `n` (assuming `n < 2 ^ 64`). -/
def toBE8 (n : Nat) : List Nat :=
  [n / 256 ^ 7 % 256, n / 256 ^ 6 % 256, n / 256 ^ 5 % 256, n / 256 ^ 4 % 256,
   n / 256 ^ 3 % 256, n / 256 ^ 2 % 256, n / 256 % 256, n % 256]

theorem toBE8_length (n : Nat) : (toBE8 n).length = 8 := rfl

theorem toBE8_lt (n : Nat) : ∀ b ∈ toBE8 n, b < 256 := by
  intro b hb
  simp only [toBE8, List.mem_cons, List.mem_singleton, List.not_mem_nil, or_false] at hb
  rcases hb with h | h | h | h | h | h | h | h <;> subst h <;>
    exact Nat.mod_lt _ (by norm_num)

theorem fromBE_toBE8 (n : Nat) (h : n < 2 ^ 64) : fromBE (toBE8 n) = n := by
  simp only [fromBE, toBE8, List.foldl]
  omega

/-! ## Base64 (standard alphabet, canonical padding)

Model of the `base64` crate engine `general_purpose::STANDARD`: standard
alphabet, encoding emits padding, decoding requires canonical padding and
rejects non-zero trailing bits. -/

/-- Value of a standard-alphabet base64 character, `none` for every other
character (including the pad character). -/
def b64Val (c : Char) : Option Nat :=
  if 'A' ≤ c ∧ c ≤ 'Z' then some (c.toNat - 65)
  else if 'a' ≤ c ∧ c ≤ 'z' then some (c.toNat - 97 + 26)
  else if '0' ≤ c ∧ c ≤ '9' then some (c.toNat - 48 + 52)
  else if c = '+' then some 62
  else if c = '/' then some 63
  else none

/-- Standard-alphabet base64 character for a 6-bit value. -/
def b64CharOf (n : Nat) : Char :=
  if n < 26 then Char.ofNat (65 + n)
  else if n < 52 then Char.ofNat (97 + (n - 26))
  else if n < 62 then Char.ofNat (48 + (n - 52))
  else if n = 62 then '+'
  else '/'

/-- Base64 encoding of a byte list, three bytes to four characters, with
canonical `=` padding on the final partial group. -/
def b64EncodeList : List Nat → List Char
  | [] => []
  | [b1] => [b64CharOf (b1 / 4), b64CharOf (b1 % 4 * 16), '=', '=']
  | [b1, b2] =>
      [b64CharOf (b1 / 4), b64CharOf (b1 % 4 * 16 + b2 / 16),
       b64CharOf (b2 % 16 * 4), '=']
  | b1 :: b2 :: b3 :: rest =>
      b64CharOf (b1 / 4) :: b64CharOf (b1 % 4 * 16 + b2 / 16) ::
      b64CharOf (b2 % 16 * 4 + b3 / 64) :: b64CharOf (b3 % 64) ::
      b64EncodeList rest

/-- Base64 decoding of a character list: groups of four characters, canonical
padding only in the final group, non-zero trailing bits rejected (the
`general_purpose::STANDARD` decode behaviour). -/
def b64DecodeList : List Char → Option (List Nat)
  | [] => some []
  | c1 :: c2 :: c3 :: c4 :: rest =>
      match b64Val c1, b64Val c2, b64Val c3, b64Val c4 with
      | some v1, some v2, some v3, some v4 =>
          (b64DecodeList rest).map
            (fun bs => (v1 * 4 + v2 / 16) :: (v2 % 16 * 16 + v3 / 4) ::
              (v3 % 4 * 64 + v4) :: bs)
      | some v1, some v2, some v3, none =>
          if c4 = '=' ∧ rest = [] ∧ v3 % 4 = 0 then
            some [v1 * 4 + v2 / 16, v2 % 16 * 16 + v3 / 4]
          else none
      | some v1, some v2, none, none =>
          if c3 = '=' ∧ c4 = '=' ∧ rest = [] ∧ v2 % 16 = 0 then
            some [v1 * 4 + v2 / 16]
          else none
      | _, _, _, _ => none
  | _ => none

/-- String-level base64 encoding. -/
def base64Encode (bs : List Nat) : String := String.mk (b64EncodeList bs)

/-- String-level base64 decoding. -/
def base64Decode (s : String) : Option (List Nat) := b64DecodeList s.data

theorem b64Val_b64CharOf : ∀ n < 64, b64Val (b64CharOf n) = some n := by decide

theorem b64EncodeList_length (bs : List Nat) :
    (b64EncodeList bs).length = 4 * ((bs.length + 2) / 3) := by
  induction bs using b64EncodeList.induct with
  | case1 => simp [b64EncodeList]
  | case2 b1 => simp [b64EncodeList]
  | case3 b1 b2 => simp [b64EncodeList]
  | case4 b1 b2 b3 rest ih =>
      simp only [b64EncodeList, List.length_cons, ih]
      omega

theorem b64DecodeList_length : ∀ (cs : List Char) (bs : List Nat),
    b64DecodeList cs = some bs → cs.length = 4 * ((bs.length + 2) / 3)
  | [], bs, h => by
      simp only [b64DecodeList, Option.some.injEq] at h
      subst h; rfl
  | [c1], bs, h => by
      rw [show b64DecodeList [c1] = none from rfl] at h
      exact absurd h (by simp)
  | [c1, c2], bs, h => by
      rw [show b64DecodeList [c1, c2] = none from rfl] at h
      exact absurd h (by simp)
  | [c1, c2, c3], bs, h => by
      rw [show b64DecodeList [c1, c2, c3] = none from rfl] at h
      exact absurd h (by simp)
  | c1 :: c2 :: c3 :: c4 :: rest, bs, h => by
      simp only [b64DecodeList] at h
      cases hv1 : b64Val c1 <;> cases hv2 : b64Val c2 <;>
        cases hv3 : b64Val c3 <;> cases hv4 : b64Val c4 <;>
        simp only [hv1, hv2, hv3, hv4] at h
      all_goals try exact Option.noConfusion h
      case some.some.some.some v1 v2 v3 v4 =>
        obtain ⟨bs0, hbs0, rfl⟩ := Option.map_eq_some'.mp h
        have ih := b64DecodeList_length rest bs0 hbs0
        simp only [List.length_cons, ih]
        omega
      case some.some.some.none v1 v2 v3 =>
        split at h
        · rename_i hcond
          obtain ⟨h4, hrest, hbits⟩ := hcond
          simp only [Option.some.injEq] at h
          subst h; subst hrest; simp
        · exact absurd h (by simp)
      case some.some.none.none v1 v2 =>
        split at h
        · rename_i hcond
          obtain ⟨h3, h4, hrest, hbits⟩ := hcond
          simp only [Option.some.injEq] at h
          subst h; subst hrest; simp
        · exact absurd h (by simp)

theorem b64_roundtrip : ∀ bs : List Nat, (∀ b ∈ bs, b < 256) →
    b64DecodeList (b64EncodeList bs) = some bs := by
  intro bs
  induction bs using b64EncodeList.induct with
  | case1 => intro _; rfl
  | case2 b1 =>
      intro hb
      have h1 : b1 < 256 := hb b1 (by simp)
      simp only [b64EncodeList, b64DecodeList,
        b64Val_b64CharOf (b1 / 4) (by omega),
        b64Val_b64CharOf (b1 % 4 * 16) (by omega),
        show b64Val '=' = none from by decide]
      rw [if_pos (by simp only [true_and, and_true]; omega)]
      simp only [Option.some.injEq, List.cons.injEq, and_true]
      omega
  | case3 b1 b2 =>
      intro hb
      have h1 : b1 < 256 := hb b1 (by simp)
      have h2 : b2 < 256 := hb b2 (by simp)
      simp only [b64EncodeList, b64DecodeList,
        b64Val_b64CharOf (b1 / 4) (by omega),
        b64Val_b64CharOf (b1 % 4 * 16 + b2 / 16) (by omega),
        b64Val_b64CharOf (b2 % 16 * 4) (by omega),
        show b64Val '=' = none from by decide]
      rw [if_pos (by simp only [true_and, and_true]; omega)]
      simp only [Option.some.injEq, List.cons.injEq, and_true]
      constructor <;> omega
  | case4 b1 b2 b3 rest ih =>
      intro hb
      have h1 : b1 < 256 := hb b1 (by simp)
      have h2 : b2 < 256 := hb b2 (by simp)
      have h3 : b3 < 256 := hb b3 (by simp)
      have hrest : ∀ b ∈ rest, b < 256 := fun b hm => hb b (by simp [hm])
      simp only [b64EncodeList, b64DecodeList,
        b64Val_b64CharOf (b1 / 4) (by omega),
        b64Val_b64CharOf (b1 % 4 * 16 + b2 / 16) (by omega),
        b64Val_b64CharOf (b2 % 16 * 4 + b3 / 64) (by omega),
        b64Val_b64CharOf (b3 % 64) (by omega),
        ih hrest, Option.map_some']
      simp only [Option.some.injEq, List.cons.injEq, and_true]
      refine ⟨by omega, by omega, by omega⟩

theorem base64_roundtrip (bs : List Nat) (hb : ∀ b ∈ bs, b < 256) :
    base64Decode (base64Encode bs) = some bs :=
  b64_roundtrip bs hb

theorem base64Encode_length (bs : List Nat) :
    (base64Encode bs).length = 4 * ((bs.length + 2) / 3) :=
  b64EncodeList_length bs

theorem base64Decode_length (s : String) (bs : List Nat)
    (h : base64Decode s = some bs) :
    s.length = 4 * ((bs.length + 2) / 3) :=
  b64DecodeList_length s.data bs h

/-! ## Envelope data model — `src/src/networks/arbitrum/types.rs` -/

/-- Opaque stand-in for `serde_json::Value`; the system never inspects the
`signature`, `request_id` and `base_fee_l1` fields. -/
structure JsonValue where
  raw : String
deriving DecidableEq

/-- The `Header` struct of `types.rs`. -/
structure Header where
  kind : Nat
  sender : String
  block_number : Nat
  timestamp : Nat
  request_id : JsonValue
  base_fee_l1 : JsonValue
deriving DecidableEq

/-- The `L1IncomingMessageHeader` struct of `types.rs`: the outer header plus
the base64-encoded L2 message. -/
structure L1IncomingMessageHeader where
  header : Header
  l2msg : String
deriving DecidableEq

/-- The `MessageWithMetadata` struct of `types.rs`. -/
structure MessageWithMetadata where
  message : L1IncomingMessageHeader
  delayed_messages_read : Nat
deriving DecidableEq

/-- The `BroadcastFeedMessage` struct of `types.rs`. -/
structure BroadcastFeedMessage where
  sequence_number : Nat
  message : MessageWithMetadata
  signature : JsonValue
deriving DecidableEq

/-- The `Root` struct of `types.rs` (the JSON envelope). -/
structure Root where
  version : Nat
  messages : List BroadcastFeedMessage
deriving DecidableEq

/-! ## Payload decoder

Shared embedding of `src/src/decoder.rs` and
`src/src/networks/arbitrum/decoder.rs`.  The two files declare textually
identical copies of `L2MessageKind`, `Action`, `DecodedMsg`,
`parse_batch_transactions` and of the kind-dispatch body (inlined in
`decode` in the first file, the function `get_decoded_msg` in the second),
so those are defined once here; the two `decode` entry points, which differ
in their base64 error handling, are defined separately below.

A Rust panic (`unwrap`, out-of-bounds slice, arithmetic overflow, the
`panic!` in `L2MessageKind::from`) is modelled as `Except.error` carrying
the panic message; a normal return is `Except.ok`. -/

def MAX_L2_MESSAGE_SIZE : Nat := 256 * 1024

/-- The `L2MessageKind` enum. -/
inductive L2MessageKind where
  | UnsignedUserTx
  | ContractTx
  | NonMutatingCall
  | Batch
  | SignedTx
  | Heartbeat
  | SignedCompressedTx
deriving DecidableEq

/-- The `From<u8> for L2MessageKind` conversion; byte values `5` and `≥ 8`
hit the `panic!` arm. -/
def L2MessageKind.fromU8 (v : Nat) : Except String L2MessageKind :=
  match v with
  | 0 => .ok .UnsignedUserTx
  | 1 => .ok .ContractTx
  | 2 => .ok .NonMutatingCall
  | 3 => .ok .Batch
  | 4 => .ok .SignedTx
  | 6 => .ok .Heartbeat
  | 7 => .ok .SignedCompressedTx
  | _ => .error "L2MessageKind is not supported"

/-- The `DecodedMsg` enum, parameterised by the opaque transaction type of
the external RLP codec. -/
inductive DecodedMsg (Tx : Type) where
  | DecodedBatch (txs : List Tx)
  | DecodedSignedTx (tx : Tx)
deriving DecidableEq

/-- Loop body of `parse_batch_transactions`.  The Rust loop walks an index
`i` over `data` with `while i < data.len() - 8`; here `rem` is the
unconsumed tail `data[i..]`, so the guard `i < data.len() - 8` is
`8 < rem.length` (for `data.len() ≥ 8`, which the wrapper establishes), the
length-prefix read `data[i..i + 8]` is `rem.take 8`, the sub-message slice
`data[i + 8..i + 8 + size]` is `(rem.drop 8).take size` — panicking
(`.error`) when `8 + size` exceeds `rem.length` — the `msg[1..]` slice
panics when the sub-message is empty, the RLP `unwrap` panics when the
codec fails, and `i += 8 + size` is `rem.drop (8 + size)`. -/
def parse_go {Tx : Type} (rlpDec : List Nat → Option Tx)
    (rem : List Nat) (acc : List Tx) : Except String (List Tx) :=
  if _h8 : 8 < rem.length then
    let size := fromBE (rem.take 8)
    if _hsz : 8 + size ≤ rem.length then
      match (rem.drop 8).take size with
      | [] => .error "slice start index is out of range"
      | _ :: body =>
        match rlpDec body with
        | some tx => parse_go rlpDec (rem.drop (8 + size)) (acc ++ [tx])
        | none => .error "rlp unwrap failed"
    else .error "slice end index out of range"
  else .ok acc
termination_by rem.length
decreasing_by simp only [List.length_drop]; omega

/-- The `parse_batch_transactions` function (identical in both decoder
files).  When `data.len() < 8` the Rust guard expression `data.len() - 8`
underflows `usize`: a debug build panics at the subtraction, a release
build wraps and then panics on the out-of-bounds read `data[i..i + 8]`;
either way the call aborts, modelled as `.error`. -/
def parse_batch_transactions {Tx : Type} (rlpDec : List Nat → Option Tx)
    (data : List Nat) : Except String (List Tx) :=
  if data.length < 8 then .error "attempt to subtract with overflow"
  else parse_go rlpDec data []

/-- The kind dispatch on the decoded payload bytes: `get_decoded_msg` in
`src/src/networks/arbitrum/decoder.rs`, and the identical inlined match in
`decode` in `src/src/decoder.rs`.  Reading `l2_bytes[0]` of an empty vector
panics; the `SignedTx` arm `unwrap`s the RLP codec result. -/
def get_decoded_msg {Tx : Type} (rlpDec : List Nat → Option Tx)
    (l2_bytes : List Nat) : Except String (Option (DecodedMsg Tx)) :=
  match l2_bytes with
  | [] => .error "byte index out of bounds"
  | b :: rest =>
    match L2MessageKind.fromU8 b with
    | .error e => .error e
    | .ok .Batch =>
      match parse_batch_transactions rlpDec rest with
      | .ok txs => .ok (some (.DecodedBatch txs))
      | .error e => .error e
    | .ok .SignedTx =>
      match rlpDec rest with
      | some tx => .ok (some (.DecodedSignedTx tx))
      | none => .error "rlp unwrap failed"
    | .ok _ => .ok none

namespace ArbDecoder

/-- The method `L1IncomingMessageHeader::decode` of
`src/src/networks/arbitrum/decoder.rs`: size guard on the base64 string,
then `base64 decode |>.unwrap_or_default()` (a failed decode becomes the
empty byte vector), then `get_decoded_msg`. -/
def decode {Tx : Type} (rlpDec : List Nat → Option Tx)
    (h : L1IncomingMessageHeader) : Except String (Option (DecodedMsg Tx)) :=
  if MAX_L2_MESSAGE_SIZE < h.l2msg.length then .ok none
  else get_decoded_msg rlpDec ((base64Decode h.l2msg).getD [])

end ArbDecoder

namespace MainDecoder

/-- The method `L1IncomingMessageHeader::decode` of `src/src/decoder.rs`:
size guard on the base64 string, then `base64 decode |>.unwrap()` (a failed
decode panics), then the kind dispatch (inlined in the source, identical to
`get_decoded_msg`). -/
def decode {Tx : Type} (rlpDec : List Nat → Option Tx)
    (h : L1IncomingMessageHeader) : Except String (Option (DecodedMsg Tx)) :=
  if MAX_L2_MESSAGE_SIZE < h.l2msg.length then .ok none
  else
    match base64Decode h.l2msg with
    | none => .error "base64 unwrap failed"
    | some l2_bytes => get_decoded_msg rlpDec l2_bytes

end MainDecoder

/-! ## `Action` RLP decoding

The `rlp::Decodable for Action` implementation (identical in both decoder
files).  The `Rlp` accessors it uses — `is_empty`, `is_data`, and
`as_val::<H160>` — are modelled from the `rlp` crate and the fixed-hash
`Decodable` instance used by `ethers` over structurally well-formed RLP
items: `is_empty` holds exactly for the empty data item (raw `0x80`) and
the empty list (raw `0xc0`); `is_data` holds exactly for data items;
decoding an `H160` requires a data item of exactly 20 bytes
(`RlpIsTooShort` / `RlpIsTooBig` otherwise, `RlpExpectedToBeData` on a
list). -/

/-- Structural RLP item (data leaf or list). -/
inductive RlpItem where
  | data (bytes : List Nat)
  | items (xs : List RlpItem)

/-- The `DecoderError` variants relevant here. -/
inductive DecoderError where
  | RlpExpectedToBeData
  | RlpIsTooShort
  | RlpIsTooBig
deriving DecidableEq

/-- `Rlp::is_empty`: the raw payload starts with `0x80` (empty data) or
`0xc0` (empty list). -/
def RlpItem.is_empty : RlpItem → Bool
  | .data [] => true
  | .items [] => true
  | _ => false

/-- `Rlp::is_data`: the item is a data item. -/
def RlpItem.is_data : RlpItem → Bool
  | .data _ => true
  | .items _ => false

/-- A 20-byte address value, as decoded by `as_val::<H160>`. -/
def H160 := List Nat
deriving DecidableEq

/-- `rlp.as_val::<H160>()`: a data item of exactly 20 bytes. -/
def decodeH160 : RlpItem → Except DecoderError H160
  | .data bs =>
      if bs.length < 20 then .error .RlpIsTooShort
      else if 20 < bs.length then .error .RlpIsTooBig
      else .ok bs
  | .items _ => .error .RlpExpectedToBeData

/-- The `Action` enum of the decoder files (named `TxAction` here because
Mathlib already declares an `Action`). -/
inductive TxAction where
  | Create
  | Call (addr : H160)
deriving DecidableEq

/-- The `rlp::Decodable::decode` implementation for `Action`. -/
def TxAction.decode (rlp : RlpItem) : Except DecoderError TxAction :=
  if rlp.is_empty then
    if rlp.is_data then .ok .Create else .error .RlpExpectedToBeData
  else
    match decodeH160 rlp with
    | .ok a => .ok (.Call a)
    | .error e => .error e

/-! ## Relay client — `src/src/networks/arbitrum/feed_client.rs`

The error and status enums live in `src/src/networks/arbitrum/errors.rs`,
which is not part of the provided sources. -/

/-- Modelled from the spec: the `RelayError` enum of the absent
`errors.rs` — connect-time faults `InvalidUrl` and `InvalidChainId`, the
channel-send failure produced by the `?` on `connection_update.send`, and
transport-level faults. -/
inductive RelayError where
  | InvalidUrl
  | InvalidChainId
  | SendError
  | Transport (e : String)
deriving DecidableEq

/-- Modelled from the spec: the `ConnectionUpdate` status-notice enum of the
absent `errors.rs`, with its single variant carrying the client id. -/
inductive ConnectionUpdate where
  | StoppedSendingFrames (id : Nat)
deriving DecidableEq

/-- Rust `str::parse::<u64>()`: optional leading `+`, at least one ASCII
digit, nothing else, value below `2 ^ 64`; `none` models `Err(_)`. -/
def parseU64 (s : String) : Option Nat :=
  let cs := match s.data with
    | '+' :: rest => rest
    | l => l
  if cs = [] then none
  else if cs.all (fun c => c.isDigit) then
    let v := cs.foldl (fun a c => a * 10 + (c.toNat - 48)) 0
    if v < 2 ^ 64 then some v else none
  else none

/-- The `check_chain_id_header` function.  The response header map is
modelled as an association list with lower-cased names (`http::HeaderMap`
lookup); `to_str().unwrap_or_default()` then `parse().unwrap_or_default()`
turn a missing-or-unparsable value into `0` before the comparison. -/
def check_chain_id_header (resp : List (String × String)) (chain_id : Nat) :
    Except RelayError Unit :=
  match resp.lookup "arbitrum-chain-id" with
  | none => .error .InvalidChainId
  | some v =>
      if (parseU64 v).getD 0 ≠ chain_id then .error .InvalidChainId
      else .ok ()

/-- One item yielded by `self.connection.next()`: a delivered frame (its
payload bytes, via `Message::into_data`) or a transport-level error. -/
inductive FrameEvent where
  | frame (bytes : List Nat)
  | err (e : String)

deriving instance DecidableEq for Except

/-- Observable outcome of a `run` call: the envelopes delivered on the
output channel, the notices delivered on the status channel, and the
function result. -/
structure RunResult where
  sent : List Root
  updates : List ConnectionUpdate
  result : Except RelayError Unit
deriving DecidableEq

/-- The `RelayClient::run` loop over the incoming event stream.
`parse` models `serde_json::from_slice::<Root>`; `senderOk` and `statusOk`
model whether the two crossbeam channels still have a receiver.  A frame
whose bytes fail to parse is skipped (`continue`); a parsed envelope is
sent on the output channel, and a failed send breaks the loop (returning
`Ok(())`); a transport error sends `StoppedSendingFrames(id)` on the
status channel — propagating a channel failure via `?` — logs, and breaks,
after which the function returns `Ok(())`. -/
def RelayClient.run (parse : List Nat → Option Root)
    (senderOk statusOk : Bool) (id : Nat) :
    List FrameEvent → RunResult
  | [] => ⟨[], [], .ok ()⟩
  | .frame b :: rest =>
      match parse b with
      | none => RelayClient.run parse senderOk statusOk id rest
      | some root =>
          if senderOk then
            let r := RelayClient.run parse senderOk statusOk id rest
            ⟨root :: r.sent, r.updates, r.result⟩
          else ⟨[], [], .ok ()⟩
  | .err _ :: _ =>
      if statusOk then ⟨[], [.StoppedSendingFrames id], .ok ()⟩
      else ⟨[], [], .error .SendError⟩

/-! ## Batch frame encoders

The encodings named by the round-trip properties: each batch sub-message is
the 8-byte big-endian length of `1 + |rlp(tx)|`, one inner-kind tag byte,
then the RLP bytes. -/

/-- One batch sub-message frame for a (tag byte, transaction) pair. -/
def encodeFrame {Tx : Type} (enc : Tx → List Nat) (p : Nat × Tx) : List Nat :=
  toBE8 (1 + (enc p.2).length) ++ p.1 :: enc p.2

/-- Concatenation of the frames of a list of (tag byte, transaction)
pairs: the body of a `Batch`-kind payload. -/
def encodeFrames {Tx : Type} (enc : Tx → List Nat) (ps : List (Nat × Tx)) :
    List Nat :=
  (ps.map (encodeFrame enc)).flatten

/-! ## Lemmas about the batch framing parser -/

theorem parse_go_frame {Tx : Type} (rlpDec : List Nat → Option Tx)
    (tg : Nat) (tx : Tx) (txbytes rest : List Nat) (acc : List Tx)
    (hlen : 1 + txbytes.length < 2 ^ 64)
    (hdec : rlpDec txbytes = some tx) :
    parse_go rlpDec ((toBE8 (1 + txbytes.length) ++ tg :: txbytes) ++ rest) acc
      = parse_go rlpDec rest (acc ++ [tx]) := by
  set L := 1 + txbytes.length with hL
  set rem := (toBE8 L ++ tg :: txbytes) ++ rest with hrem
  have h1 : rem.length = 8 + L + rest.length := by
    simp [hrem, toBE8_length, hL]
    omega
  have htake : rem.take 8 = toBE8 L := by
    rw [hrem, List.append_assoc]
    exact List.take_left' (toBE8_length L)
  have hdrop8 : rem.drop 8 = tg :: (txbytes ++ rest) := by
    rw [hrem, List.append_assoc]
    exact List.drop_left' (toBE8_length L)
  have htakemsg : (rem.drop 8).take L = tg :: txbytes := by
    rw [hdrop8, hL, Nat.add_comm 1 txbytes.length, List.take_succ_cons,
      List.take_left]
  have hdropL : rem.drop (8 + L) = rest := by
    rw [hrem]
    refine List.drop_left' ?_
    simp [toBE8_length, hL]
    omega
  conv_lhs => rw [parse_go]
  rw [dif_pos (by omega : 8 < rem.length)]
  simp only [htake, fromBE_toBE8 L hlen]
  rw [dif_pos (by omega : 8 + L ≤ rem.length)]
  rw [htakemsg]
  simp only [hdec]
  rw [hdropL]

theorem parse_go_spec {Tx : Type} (rlpDec : List Nat → Option Tx)
    (enc : Tx → List Nat) :
    ∀ (ps : List (Nat × Tx)) (tl acc : _),
    (∀ p ∈ ps, rlpDec (enc p.2) = some p.2) →
    (∀ p ∈ ps, 1 + (enc p.2).length < 2 ^ 64) →
    tl.length ≤ 8 →
    parse_go rlpDec (encodeFrames enc ps ++ tl) acc
      = .ok (acc ++ ps.map Prod.snd) := by
  intro ps
  induction ps with
  | nil =>
      intro tl acc _ _ htl
      simp only [encodeFrames, List.map_nil, List.flatten_nil,
        List.nil_append]
      rw [parse_go]
      rw [dif_neg (by omega)]
      simp
  | cons p ps ih =>
      intro tl acc hcodec hlen64 htl
      obtain ⟨tg, t⟩ := p
      have hct : rlpDec (enc t) = some t := hcodec (tg, t) (by simp)
      have hlt : 1 + (enc t).length < 2 ^ 64 := hlen64 (tg, t) (by simp)
      simp only [encodeFrames, List.map_cons, List.flatten_cons, encodeFrame]
      rw [List.append_assoc]
      rw [show ((ps.map (encodeFrame enc)).flatten ++ tl)
            = encodeFrames enc ps ++ tl from rfl]
      rw [parse_go_frame rlpDec tg t (enc t) (encodeFrames enc ps ++ tl) acc
        hlt hct]
      rw [ih tl (acc ++ [t]) (fun q hq => hcodec q (by simp [hq]))
        (fun q hq => hlen64 q (by simp [hq])) htl]
      simp

theorem encodeFrames_cons_length {Tx : Type} (enc : Tx → List Nat)
    (p : Nat × Tx) (ps : List (Nat × Tx)) :
    9 ≤ (encodeFrames enc (p :: ps)).length := by
  simp [encodeFrames, encodeFrame, toBE8_length]
  omega

theorem encodeFrames_lt {Tx : Type} (enc : Tx → List Nat)
    (ps : List (Nat × Tx))
    (htag : ∀ p ∈ ps, p.1 < 256)
    (hbytes : ∀ p ∈ ps, ∀ b ∈ enc p.2, b < 256) :
    ∀ b ∈ encodeFrames enc ps, b < 256 := by
  intro b hb
  simp only [encodeFrames, List.mem_flatten, List.mem_map] at hb
  obtain ⟨l, ⟨q, hq, rfl⟩, hbl⟩ := hb
  simp only [encodeFrame, List.mem_append, List.mem_cons] at hbl
  rcases hbl with h | h | h
  · exact toBE8_lt _ b h
  · subst h; exact htag q hq
  · exact hbytes q hq b h

theorem parse_batch_spec {Tx : Type} (rlpDec : List Nat → Option Tx)
    (enc : Tx → List Nat) (ps : List (Nat × Tx)) (tl : List Nat)
    (hcodec : ∀ p ∈ ps, rlpDec (enc p.2) = some p.2)
    (hlen64 : ∀ p ∈ ps, 1 + (enc p.2).length < 2 ^ 64)
    (htl : tl.length ≤ 8)
    (htot : 8 ≤ (encodeFrames enc ps ++ tl).length) :
    parse_batch_transactions rlpDec (encodeFrames enc ps ++ tl)
      = .ok (ps.map Prod.snd) := by
  unfold parse_batch_transactions
  rw [if_neg (by omega)]
  simpa using parse_go_spec rlpDec enc ps tl [] hcodec hlen64 htl

theorem decode_batch_payload {Tx : Type} (rlpDec : List Nat → Option Tx)
    (enc : Tx → List Nat) (ps : List (Nat × Tx)) (hd : Header)
    (hne : ps ≠ [])
    (hcodec : ∀ p ∈ ps, rlpDec (enc p.2) = some p.2)
    (htag : ∀ p ∈ ps, p.1 < 256)
    (hbytes : ∀ p ∈ ps, ∀ b ∈ enc p.2, b < 256)
    (hlen64 : ∀ p ∈ ps, 1 + (enc p.2).length < 2 ^ 64)
    (hsize : (base64Encode (3 :: encodeFrames enc ps)).length
      ≤ MAX_L2_MESSAGE_SIZE) :
    ArbDecoder.decode rlpDec ⟨hd, base64Encode (3 :: encodeFrames enc ps)⟩
      = .ok (some (.DecodedBatch (ps.map Prod.snd))) := by
  have hall : ∀ b ∈ 3 :: encodeFrames enc ps, b < 256 := by
    intro b hb
    rcases List.mem_cons.mp hb with h | h
    · omega
    · exact encodeFrames_lt enc ps htag hbytes b h
  have h9 : 9 ≤ (encodeFrames enc ps).length := by
    cases ps with
    | nil => exact absurd rfl hne
    | cons p ps => exact encodeFrames_cons_length enc p ps
  have hparse : parse_batch_transactions rlpDec (encodeFrames enc ps)
      = .ok (ps.map Prod.snd) := by
    have := parse_batch_spec rlpDec enc ps [] hcodec hlen64 (by simp)
      (by simpa using by omega)
    simpa using this
  unfold ArbDecoder.decode
  rw [show (⟨hd, base64Encode (3 :: encodeFrames enc ps)⟩ :
      L1IncomingMessageHeader).l2msg = base64Encode (3 :: encodeFrames enc ps)
    from rfl]
  rw [if_neg (by omega)]
  rw [base64_roundtrip _ hall]
  simp only [Option.getD_some, get_decoded_msg, L2MessageKind.fromU8, hparse]

theorem decode_signed_payload {Tx : Type} (rlpDec : List Nat → Option Tx)
    (enc : Tx → List Nat) (tx : Tx) (hd : Header)
    (hdec : rlpDec (enc tx) = some tx)
    (hb : ∀ b ∈ enc tx, b < 256)
    (hsize : (base64Encode (4 :: enc tx)).length ≤ MAX_L2_MESSAGE_SIZE) :
    ArbDecoder.decode rlpDec ⟨hd, base64Encode (4 :: enc tx)⟩
      = .ok (some (.DecodedSignedTx tx)) := by
  have hall : ∀ b ∈ 4 :: enc tx, b < 256 := by
    intro b hbm
    rcases List.mem_cons.mp hbm with h | h
    · omega
    · exact hb b h
  unfold ArbDecoder.decode
  rw [show (⟨hd, base64Encode (4 :: enc tx)⟩ :
      L1IncomingMessageHeader).l2msg = base64Encode (4 :: enc tx) from rfl]
  rw [if_neg (by omega)]
  rw [base64_roundtrip _ hall]
  simp only [Option.getD_some, get_decoded_msg, L2MessageKind.fromU8, hdec]

/-! ## Claim theorems -/

/-- A concrete outer header for closed instances; `decode` never reads it. -/
def sampleHeader : Header := ⟨0, "", 0, 0, ⟨""⟩, ⟨""⟩⟩

/-- C1, counterexample: a batch body whose single frame announces length 10
with only 1 byte available after the length prefix.  The claim predicts
that the parser stops and returns the zero fully-framed transactions
decoded so far (`.ok []`); the code instead panics on the out-of-bounds
sub-message slice. -/
theorem c1_counterexample :
    parse_batch_transactions (fun b : List Nat => some b)
      [0, 0, 0, 0, 0, 0, 0, 10, 1] = .error "slice end index out of range" := by
  unfold parse_batch_transactions
  rw [if_neg (by norm_num)]
  rw [parse_go]
  rw [dif_pos (by norm_num)]
  simp only [show fromBE (List.take 8 [0, 0, 0, 0, 0, 0, 0, 10, 1]) = 10
    from by decide]
  rw [dif_neg (by norm_num)]

/-- C1 (amended): the truncation tolerance holds only at frame boundaries:
for a batch body made of fully-framed sub-messages followed by a truncated
tail of at most 8 bytes, provided the whole body is at least 8 bytes long,
the parser stops at the tail and returns exactly the transactions of the
fully-framed sub-messages, in order.  (When a frame's announced length
exceeds the bytes remaining after its length prefix, or the body is
shorter than 8 bytes, the parser panics instead — see the
counterexample.) -/
theorem c1_truncated_batch_tolerance {Tx : Type} (rlpDec : List Nat → Option Tx)
    (enc : Tx → List Nat) (ps : List (Nat × Tx)) (tl : List Nat)
    (hcodec : ∀ p ∈ ps, rlpDec (enc p.2) = some p.2)
    (hlen64 : ∀ p ∈ ps, 1 + (enc p.2).length < 2 ^ 64)
    (htl : tl.length ≤ 8)
    (htot : 8 ≤ (encodeFrames enc ps ++ tl).length) :
    parse_batch_transactions rlpDec (encodeFrames enc ps ++ tl)
      = .ok (ps.map Prod.snd) :=
  parse_batch_spec rlpDec enc ps tl hcodec hlen64 htl htot

/-- Witness for C1: one well-formed frame (tag byte 0, RLP body `[7]`,
identity codec) followed by a 2-byte truncated tail parses to that one
transaction. -/
theorem c1_witness :
    parse_batch_transactions (fun b : List Nat => some b)
      (encodeFrames (fun t => t) [(0, [7])] ++ [0, 0])
      = .ok ([(0, ([7] : List Nat))].map Prod.snd) :=
  c1_truncated_batch_tolerance (fun b => some b) (fun t => t) [(0, [7])] [0, 0]
    (by decide) (by decide) (by decide) (by decide)

/-- C4, counterexample: the empty sequence of transactions (N = 0).  Its
encoding is the single byte `[3]`, base64 `"Aw=="`; the claim predicts
`Batch([])`, but the batch parser is handed an empty body, the
`data.len() - 8` guard underflows, and the call aborts. -/
theorem c4_counterexample :
    ArbDecoder.decode (fun b : List Nat => some b)
      ⟨sampleHeader, base64Encode [3]⟩
      = .error "attempt to subtract with overflow" := by
  rfl

/-- C4 (amended): for every nonempty sequence of (tag byte, transaction)
pairs on which the RLP codec round-trips, whose base64-wrapped encoding
stays within the 256 KiB guard, decoding the `[3] ++ frames` payload
yields `Batch` of exactly the original transactions in order. -/
theorem c4_batch_roundtrip {Tx : Type} (rlpDec : List Nat → Option Tx)
    (enc : Tx → List Nat) (ps : List (Nat × Tx)) (hd : Header)
    (hne : ps ≠ [])
    (hcodec : ∀ p ∈ ps, rlpDec (enc p.2) = some p.2)
    (htag : ∀ p ∈ ps, p.1 < 256)
    (hbytes : ∀ p ∈ ps, ∀ b ∈ enc p.2, b < 256)
    (hlen64 : ∀ p ∈ ps, 1 + (enc p.2).length < 2 ^ 64)
    (hsize : (base64Encode (3 :: encodeFrames enc ps)).length
      ≤ MAX_L2_MESSAGE_SIZE) :
    ArbDecoder.decode rlpDec ⟨hd, base64Encode (3 :: encodeFrames enc ps)⟩
      = .ok (some (.DecodedBatch (ps.map Prod.snd))) :=
  decode_batch_payload rlpDec enc ps hd hne hcodec htag hbytes hlen64 hsize

/-- Witness for C4: a two-transaction batch (identity codec) decodes back
to the same two transactions in order. -/
theorem c4_witness :
    ArbDecoder.decode (fun b : List Nat => some b)
      ⟨sampleHeader,
        base64Encode (3 :: encodeFrames (fun t => t) [(0, [7]), (2, [9, 5])])⟩
      = .ok (some (.DecodedBatch
          ([(0, ([7] : List Nat)), (2, [9, 5])].map Prod.snd))) :=
  c4_batch_roundtrip (fun b => some b) (fun t => t) [(0, [7]), (2, [9, 5])]
    sampleHeader (by decide) (by decide) (by decide) (by decide) (by decide)
    (by decide)

/-- C5, counterexample: a transaction whose RLP encoding is 300000 bytes
(identity codec).  The claim predicts `SingleTx(tx)`, but the base64 string
is 400004 bytes, the 256 KiB guard fires, and `decode` returns absence. -/
theorem c5_counterexample :
    ArbDecoder.decode (fun b : List Nat => some b)
      ⟨sampleHeader, base64Encode (4 :: List.replicate 300000 1)⟩ = .ok none
    ∧ (Except.ok none : Except String (Option (DecodedMsg (List Nat))))
      ≠ .ok (some (.DecodedSignedTx (List.replicate 300000 1))) :=
  ⟨by
    have hl : (base64Encode (4 :: List.replicate 300000 1)).length = 400004 := by
      rw [base64Encode_length, List.length_cons, List.length_replicate]
    unfold ArbDecoder.decode
    rw [show (⟨sampleHeader, base64Encode (4 :: List.replicate 300000 1)⟩ :
        L1IncomingMessageHeader).l2msg
      = base64Encode (4 :: List.replicate 300000 1) from rfl]
    rw [if_pos (by rw [hl]; norm_num [MAX_L2_MESSAGE_SIZE])],
   by
    intro hcontra
    injection hcontra with hcontra2
    exact Option.noConfusion hcontra2⟩

/-- C5 (amended): for every transaction on which the RLP codec round-trips
and whose `[4] ++ rlp(tx)` payload base64-wraps to within the 256 KiB
guard, decoding yields `SingleTx` of the original transaction. -/
theorem c5_single_roundtrip {Tx : Type} (rlpDec : List Nat → Option Tx)
    (enc : Tx → List Nat) (tx : Tx) (hd : Header)
    (hdec : rlpDec (enc tx) = some tx)
    (hb : ∀ b ∈ enc tx, b < 256)
    (hsize : (base64Encode (4 :: enc tx)).length ≤ MAX_L2_MESSAGE_SIZE) :
    ArbDecoder.decode rlpDec ⟨hd, base64Encode (4 :: enc tx)⟩
      = .ok (some (.DecodedSignedTx tx)) :=
  decode_signed_payload rlpDec enc tx hd hdec hb hsize

/-- Witness for C5: the transaction `[17]` (identity codec) round-trips
through `[4] ++ rlp`, base64 and `decode`. -/
theorem c5_witness :
    ArbDecoder.decode (fun b : List Nat => some b)
      ⟨sampleHeader, base64Encode (4 :: [17])⟩
      = .ok (some (.DecodedSignedTx ([17] : List Nat))) :=
  c5_single_roundtrip (fun b => some b) (fun t => t) [17] sampleHeader
    (by decide) (by decide) (by decide)

/-- C6 (confirmed): whenever the base64 payload decodes to more than
256 KiB of bytes, both `decode` implementations return absence — the
base64 string is strictly longer than its decoded bytes, so the size guard
fires before the base64 or kind-dispatch steps are reached. -/
theorem c6_size_guard {Tx : Type} (rlpDec : List Nat → Option Tx)
    (h : L1IncomingMessageHeader) (b : List Nat)
    (hb : base64Decode h.l2msg = some b)
    (hbig : MAX_L2_MESSAGE_SIZE < b.length) :
    ArbDecoder.decode rlpDec h = .ok none
      ∧ MainDecoder.decode rlpDec h = .ok none := by
  have hlen := base64Decode_length _ _ hb
  have hguard : MAX_L2_MESSAGE_SIZE < h.l2msg.length := by
    simp only [MAX_L2_MESSAGE_SIZE] at hbig ⊢
    omega
  constructor
  · unfold ArbDecoder.decode
    rw [if_pos hguard]
  · unfold MainDecoder.decode
    rw [if_pos hguard]

/-- Witness for C6: a 262145-byte zero payload; its base64 string is 349528
characters, so both decoders return absence. -/
theorem c6_witness :
    ArbDecoder.decode (fun bs : List Nat => some bs)
      ⟨sampleHeader, base64Encode (List.replicate 262145 0)⟩ = .ok none
    ∧ MainDecoder.decode (fun bs : List Nat => some bs)
      ⟨sampleHeader, base64Encode (List.replicate 262145 0)⟩ = .ok none :=
  c6_size_guard (fun bs => some bs)
    ⟨sampleHeader, base64Encode (List.replicate 262145 0)⟩
    (List.replicate 262145 0)
    (base64_roundtrip (List.replicate 262145 0)
      (fun b hb => by rw [List.eq_of_mem_replicate hb]; norm_num))
    (by rw [List.length_replicate]; norm_num [MAX_L2_MESSAGE_SIZE])

/-- C7 (confirmed): on every header the two `decode` implementations agree
up to panic identity — either they return the same value, or both abort
(they differ only in the panic: `src/src/decoder.rs` panics inside the
base64 `unwrap`, the arbitrum variant replaces the failed decode by an
empty vector and then panics indexing byte 0). -/
theorem c7_decoders_equivalent {Tx : Type} (rlpDec : List Nat → Option Tx)
    (h : L1IncomingMessageHeader) :
    ArbDecoder.decode rlpDec h = MainDecoder.decode rlpDec h
      ∨ ((∃ m, ArbDecoder.decode rlpDec h = .error m)
          ∧ (∃ m, MainDecoder.decode rlpDec h = .error m)) := by
  unfold ArbDecoder.decode MainDecoder.decode
  by_cases hg : MAX_L2_MESSAGE_SIZE < h.l2msg.length
  · left
    rw [if_pos hg, if_pos hg]
  · rw [if_neg hg, if_neg hg]
    cases hb : base64Decode h.l2msg with
    | some bs => left; rfl
    | none =>
        right
        exact ⟨⟨"byte index out of bounds", rfl⟩, ⟨"base64 unwrap failed", rfl⟩⟩

/-- C10, counterexample: a 262148-character invalid-base64 string.  The
claim says every invalid-base64 input takes the abort path in the arbitrum
variant, but this input fails the 256 KiB size guard first and `decode`
returns absence instead of aborting. -/
theorem c10_counterexample :
    base64Decode (String.mk ('!' :: '!' :: '!' :: '!' ::
        List.replicate 262144 '!')) = none
    ∧ ArbDecoder.decode (fun b : List Nat => some b)
        ⟨sampleHeader, String.mk ('!' :: '!' :: '!' :: '!' ::
          List.replicate 262144 '!')⟩ = .ok none :=
  ⟨by
    show b64DecodeList ('!' :: '!' :: '!' :: '!' :: List.replicate 262144 '!')
      = none
    simp only [b64DecodeList, show b64Val '!' = none from by decide],
   by
    have hl : (String.mk ('!' :: '!' :: '!' :: '!' ::
        List.replicate 262144 '!')).length = 262148 := by
      show ('!' :: '!' :: '!' :: '!' :: List.replicate 262144 '!').length
        = 262148
      rw [List.length_cons, List.length_cons, List.length_cons,
        List.length_cons, List.length_replicate]
    unfold ArbDecoder.decode
    rw [show (⟨sampleHeader, String.mk ('!' :: '!' :: '!' :: '!' ::
        List.replicate 262144 '!')⟩ : L1IncomingMessageHeader).l2msg
      = String.mk ('!' :: '!' :: '!' :: '!' :: List.replicate 262144 '!')
      from rfl]
    rw [if_pos (by rw [hl]; norm_num [MAX_L2_MESSAGE_SIZE])]⟩

/-- C10 (amended): restricted to payload strings within the 256 KiB size
guard, the claim holds: a payload decoding to zero bytes — or, in the
arbitrum variant, any invalid-base64 payload, whose failed decode is
replaced by the empty vector — reaches the read of byte 0 of an empty
byte vector and aborts rather than returning absence; in the strict
variant an invalid-base64 payload aborts already at the base64 `unwrap`. -/
theorem c10_empty_payload_aborts {Tx : Type} (rlpDec : List Nat → Option Tx)
    (h : L1IncomingMessageHeader)
    (hlen : h.l2msg.length ≤ MAX_L2_MESSAGE_SIZE)
    (hdec : base64Decode h.l2msg = some [] ∨ base64Decode h.l2msg = none) :
    ArbDecoder.decode rlpDec h = .error "byte index out of bounds"
      ∧ (base64Decode h.l2msg = some []
          → MainDecoder.decode rlpDec h = .error "byte index out of bounds")
      ∧ (base64Decode h.l2msg = none
          → MainDecoder.decode rlpDec h = .error "base64 unwrap failed") := by
  refine ⟨?_, ?_, ?_⟩
  · unfold ArbDecoder.decode
    rw [if_neg (by omega)]
    rcases hdec with hd | hd <;> rw [hd] <;> rfl
  · intro hd
    unfold MainDecoder.decode
    rw [if_neg (by omega)]
    rw [hd]
    rfl
  · intro hd
    unfold MainDecoder.decode
    rw [if_neg (by omega)]
    rw [hd]

/-- Witness for C10: the empty payload string (valid base64 of zero bytes)
sends both implementations into the abort path. -/
theorem c10_witness :
    ArbDecoder.decode (fun b : List Nat => some b)
      ⟨sampleHeader, ""⟩ = .error "byte index out of bounds"
    ∧ (base64Decode ("" : String) = some []
        → MainDecoder.decode (fun b : List Nat => some b)
            ⟨sampleHeader, ""⟩ = .error "byte index out of bounds")
    ∧ (base64Decode ("" : String) = none
        → MainDecoder.decode (fun b : List Nat => some b)
            ⟨sampleHeader, ""⟩ = .error "base64 unwrap failed") :=
  c10_empty_payload_aborts (fun b => some b) ⟨sampleHeader, ""⟩
    (by norm_num [MAX_L2_MESSAGE_SIZE]) (Or.inl rfl)

/-- C2, counterexample: a single transport-level frame error with both
channels open.  The claim predicts that `run` returns the underlying frame
error; the code emits the `StoppedSendingFrames` notice, `break`s, and
returns `Ok(())`. -/
theorem c2_counterexample :
    RelayClient.run (fun _ => none) true true 7 [.err "boom"]
      = ⟨[], [.StoppedSendingFrames 7], .ok ()⟩ := rfl

/-- C2 (amended): on a transport-level frame error `run` emits
`StoppedSendingFrames(client_id)` on the status channel and terminates the
loop, but returns success — the frame error is only logged.  `run` returns
an error on this path only when the status-channel send itself fails, and
then it is the channel error, not the frame error. -/
theorem c2_frame_error_behavior (parse : List Nat → Option Root)
    (senderOk : Bool) (id : Nat) (e : String) (rest : List FrameEvent) :
    RelayClient.run parse senderOk true id (.err e :: rest)
      = ⟨[], [.StoppedSendingFrames id], .ok ()⟩
    ∧ RelayClient.run parse senderOk false id (.err e :: rest)
      = ⟨[], [], .error .SendError⟩ :=
  ⟨rfl, rfl⟩

/-- C9 (confirmed): a frame whose bytes fail to parse as a JSON envelope is
skipped without terminating the loop, and a following well-formed frame is
still parsed and forwarded on the output channel (here with the output
channel open). -/
theorem c9_skip_malformed_frame (parse : List Nat → Option Root)
    (statusOk : Bool) (id : Nat) (b1 b2 : List Nat) (r : Root)
    (rest : List FrameEvent)
    (h1 : parse b1 = none) (h2 : parse b2 = some r) :
    RelayClient.run parse true statusOk id (.frame b1 :: .frame b2 :: rest)
      = ⟨r :: (RelayClient.run parse true statusOk id rest).sent,
         (RelayClient.run parse true statusOk id rest).updates,
         (RelayClient.run parse true statusOk id rest).result⟩ := by
  cases hrun : RelayClient.run parse true statusOk id rest with
  | mk s u res => simp [RelayClient.run, h1, h2, hrun]

/-- A concrete `serde_json::from_slice` stand-in for the C9 witness: byte
`[49]` (the JSON text `1`) parses to a fixed envelope, everything else
fails. -/
def parse0 : List Nat → Option Root :=
  fun b => if b = [49] then some ⟨0, []⟩ else none

/-- Witness for C9: a malformed frame followed by a well-formed one; the
well-formed envelope is forwarded. -/
theorem c9_witness :
    RelayClient.run parse0 true true 0 [.frame [1], .frame [49]]
      = ⟨(⟨0, []⟩ : Root) :: (RelayClient.run parse0 true true 0 []).sent,
         (RelayClient.run parse0 true true 0 []).updates,
         (RelayClient.run parse0 true true 0 []).result⟩ :=
  c9_skip_malformed_frame parse0 true 0 [1] [49] ⟨0, []⟩ []
    (by decide) (by decide)

/-- C3, counterexample: expected chain id `0` with an unparsable header
value `"abc"`.  The claim predicts failure with `InvalidChainId`; the code
defaults the failed parse to `0`, which compares equal, and validation
succeeds. -/
theorem c3_counterexample :
    check_chain_id_header [("arbitrum-chain-id", "abc")] 0 = .ok ()
    ∧ (Except.ok () : Except RelayError Unit) ≠ .error .InvalidChainId :=
  ⟨by decide, by decide⟩

/-- C3 (amended): for every nonzero expected chain id the claim holds —
validation succeeds exactly when the `arbitrum-chain-id` header is present
and parses to the expected id, and a missing header always fails with
`InvalidChainId`.  For expected id `0`, an unparsable value also passes,
because parse failure is defaulted to `0` before the comparison (see the
counterexample). -/
theorem c3_chain_id_validation (resp : List (String × String))
    (chain_id : Nat) (hnz : chain_id ≠ 0) :
    (check_chain_id_header resp chain_id = .ok ()
      ↔ ∃ v, resp.lookup "arbitrum-chain-id" = some v
          ∧ parseU64 v = some chain_id)
    ∧ (resp.lookup "arbitrum-chain-id" = none
        → check_chain_id_header resp chain_id = .error .InvalidChainId) := by
  cases hl : resp.lookup "arbitrum-chain-id" with
  | none => simp [check_chain_id_header, hl]
  | some v =>
      simp only [check_chain_id_header, hl]
      constructor
      · constructor
        · intro hok
          by_cases hp : (parseU64 v).getD 0 = chain_id
          · refine ⟨v, rfl, ?_⟩
            cases hpv : parseU64 v with
            | none =>
                rw [hpv] at hp
                simp at hp
                exact absurd hp.symm hnz
            | some n =>
                rw [hpv] at hp
                simp at hp
                rw [hp]
          · rw [if_pos hp] at hok
            exact absurd hok (by simp)
        · rintro ⟨w, hw, hpw⟩
          injection hw with hw2
          subst hw2
          rw [if_neg (by simp [hpw])]
      · intro hcontra
        exact absurd hcontra (by simp)

/-- Witness for C3: header value `"42161"` with expected id `42161`. -/
theorem c3_witness :
    (check_chain_id_header [("arbitrum-chain-id", "42161")] 42161 = .ok ()
      ↔ ∃ v, ([("arbitrum-chain-id", "42161")] :
            List (String × String)).lookup "arbitrum-chain-id" = some v
          ∧ parseU64 v = some 42161)
    ∧ (([("arbitrum-chain-id", "42161")] :
          List (String × String)).lookup "arbitrum-chain-id" = none
        → check_chain_id_header [("arbitrum-chain-id", "42161")] 42161
            = .error .InvalidChainId) :=
  c3_chain_id_validation [("arbitrum-chain-id", "42161")] 42161 (by decide)

theorem TxAction_decode_data_cons (a : Nat) (l : List Nat) :
    TxAction.decode (.data (a :: l))
      = match decodeH160 (.data (a :: l)) with
        | .ok x => .ok (.Call x)
        | .error e => .error e := rfl

/-- C8 (confirmed): `Action` RLP decoding — the empty data item decodes to
`Create`; a 20-byte data item decodes to `Call` of that address; a
non-empty data item of any other width fails with a structural decode
error; and a non-empty list item fails with a structural decode error. -/
theorem c8_action_decoding (bs cs : List Nat) (xs : List RlpItem)
    (h20 : bs.length = 20) (hne : cs ≠ []) (hn20 : cs.length ≠ 20)
    (hxs : xs ≠ []) :
    TxAction.decode (.data []) = .ok .Create
    ∧ TxAction.decode (.data bs) = .ok (.Call bs)
    ∧ (∃ e, TxAction.decode (.data cs) = .error e)
    ∧ (∃ e, TxAction.decode (.items xs) = .error e) := by
  refine ⟨rfl, ?_, ?_, ?_⟩
  · cases bs with
    | nil => simp at h20
    | cons a l =>
        rw [TxAction_decode_data_cons]
        simp only [decodeH160]
        rw [if_neg (by omega), if_neg (by omega)]
  · cases cs with
    | nil => exact absurd rfl hne
    | cons a l =>
        rw [TxAction_decode_data_cons]
        simp only [decodeH160]
        by_cases hlt : (a :: l).length < 20
        · rw [if_pos hlt]
          exact ⟨.RlpIsTooShort, rfl⟩
        · rw [if_neg hlt, if_pos (by omega)]
          exact ⟨.RlpIsTooBig, rfl⟩
  · cases xs with
    | nil => exact absurd rfl hxs
    | cons a l => exact ⟨.RlpExpectedToBeData, rfl⟩

/-- Witness for C8: the empty data item, a 20-byte address, a 1-byte data
item and a one-element list item. -/
theorem c8_witness :
    TxAction.decode (.data []) = .ok .Create
    ∧ TxAction.decode (.data (List.replicate 20 0))
        = .ok (.Call (List.replicate 20 0))
    ∧ (∃ e, TxAction.decode (.data [1]) = .error e)
    ∧ (∃ e, TxAction.decode (.items [.data []]) = .error e) :=
  c8_action_decoding (List.replicate 20 0) [1] [.data []]
    (by decide) (by simp) (by decide) (by simp)
